import Mathlib

/-!
# Verification of the mini SQL engine's core pipeline

Shallow embedding of the repository's tokenizer, expression evaluator,
nested-loop join executor and DDL/DML statement handlers
(src/SQLParser.cpp, src/ExecutionEngine.cpp, src/CatalogManager.cpp),
together with theorems settling the specification's claims about them.

Conventions of the embedding:
* C++ `std::string` is Lean `String`; rows are `List String` as produced
  by the storage collaborator's `read_all_rows`.
* Functions that throw `std::runtime_error` return `Except String α`
  carrying the thrown message.
* The catalog and storage collaborators are modelled through their
  interface semantics (a name-keyed schema list and a name-keyed row
  store); every mutating collaborator call an executor handler performs
  is additionally recorded, in call order, in an `EngineState` trace.
-/

namespace MiniDb

/-- `db::DataType` (include/db/Types.hpp). -/
inductive DataType where
  | Int
  | Varchar
deriving DecidableEq, Repr

/-- `db::default_length` (Types.cpp): `sizeof(int)` for INT, 255 for VARCHAR. -/
def default_length : DataType → Nat
  | .Int => 4
  | .Varchar => 255

/-- `db::LiteralType` (AST.hpp). -/
inductive LiteralType where
  | Int
  | String
deriving DecidableEq, Repr

/-- `db::LiteralValue` (AST.hpp): the tagged variant `{Int(i64) | String(text)}`.
The C++ struct keeps both fields and a tag; only the field selected by the
tag is ever read, so the faithful value model is a sum. -/
inductive LiteralValue where
  | int (i : Int)
  | str (s : String)
deriving DecidableEq, Repr

/-- The tag of a `LiteralValue` (the C++ `LiteralValue::type` field). -/
def LiteralValue.ltype : LiteralValue → LiteralType
  | .int _ => .Int
  | .str _ => .String

/-- Whether a literal carries the `Int` tag. -/
def LiteralValue.isInt : LiteralValue → Bool
  | .int _ => true
  | .str _ => false

/-- `db::ColumnSchema` (CatalogManager.hpp). -/
structure ColumnSchema where
  name : String
  type : DataType
  length : Nat
deriving DecidableEq, Repr

/-- `db::TableSchema` (CatalogManager.hpp). -/
structure TableSchema where
  name : String
  columns : List ColumnSchema
deriving DecidableEq, Repr

/-- `db::ColumnDefinition` (AST.hpp). -/
structure ColumnDefinition where
  name : String
  type : DataType
  length : Nat
deriving DecidableEq, Repr

/-- `db::ComparisonOperator` (AST.hpp). -/
inductive ComparisonOperator where
  | Equal
  | NotEqual
  | Greater
  | Less
  | GreaterOrEqual
  | LessOrEqual
deriving DecidableEq, Repr

/-- `db::Expression` and its subclasses (AST.hpp): `ColumnExpression`
(`table_alias` empty means unqualified), `LiteralExpression`,
`ComparisonExpression`, `AndExpression`. -/
inductive Expression where
  | col (table_alias : String) (column_name : String)
  | lit (v : LiteralValue)
  | cmp (op : ComparisonOperator) (l r : Expression)
  | and (terms : List Expression)

/-- `db::SelectItem` (AST.hpp). -/
structure SelectItem where
  is_wildcard : Bool
  table_alias : String
  column_name : String
  alias_ : String
deriving DecidableEq, Repr

/-- `db::TableReference` (AST.hpp); empty `alias_` means no alias written
(`alias` is a reserved word in Lean, hence the underscore). -/
structure TableReference where
  table_name : String
  alias_ : String
deriving DecidableEq, Repr

/-- `db::JoinClause` (AST.hpp); the `condition` pointer may in principle be
null, which `evaluate_condition` treats as vacuously true. -/
structure JoinClause where
  table : TableReference
  condition : Option Expression

/-- `db::CreateTableStatement` (AST.hpp). -/
structure CreateTableStatement where
  table_name : String
  columns : List ColumnDefinition
deriving DecidableEq, Repr

/-- `db::DropTableStatement` (AST.hpp). -/
structure DropTableStatement where
  table_name : String
deriving DecidableEq, Repr

/-- `db::Assignment` (AST.hpp). -/
structure Assignment where
  column_name : String
  value : LiteralValue
deriving DecidableEq, Repr

/-- `db::UpdateStatement` (AST.hpp); `where_expr` is the nullable `where`. -/
structure UpdateStatement where
  table_name : String
  assignments : List Assignment
  where_expr : Option Expression

/-- `db::DeleteStatement` (AST.hpp). -/
structure DeleteStatement where
  table_name : String
  where_expr : Option Expression

/-- `db::SelectStatement` (AST.hpp). -/
structure SelectStatement where
  select_list : List SelectItem
  primary_table : TableReference
  joins : List JoinClause
  where_expr : Option Expression

/-! ## Decimal text conversion (std::to_string / std::stoll / std::stoul) -/

/-- ASCII `isspace` of the C locale. -/
def c_isspace (c : Char) : Bool :=
  c = ' ' || c = '\t' || c = '\n' || c = '\x0b' || c = '\x0c' || c = '\r'

/-- ASCII `isalpha` of the C locale. -/
def c_isalpha (c : Char) : Bool :=
  ('a' ≤ c && c ≤ 'z') || ('A' ≤ c && c ≤ 'Z')

/-- ASCII `isdigit` of the C locale. -/
def c_isdigit (c : Char) : Bool :=
  '0' ≤ c && c ≤ '9'

/-- ASCII `isalnum` of the C locale. -/
def c_isalnum (c : Char) : Bool :=
  c_isalpha c || c_isdigit c

/-- Decimal digits of `n`, most significant first; `fuel` bounds the
recursion and any `fuel > n` is enough. -/
def natToDigits : Nat → Nat → List Char
  | 0, _ => []
  | fuel + 1, n =>
    if n < 10 then [Nat.digitChar n]
    else natToDigits fuel (n / 10) ++ [Nat.digitChar (n % 10)]

/-- Decimal rendering of a natural number (`std::to_string` on sizes/counts). -/
def nat_repr (n : Nat) : String :=
  String.mk (natToDigits (n + 1) n)

/-- `std::to_string(int64_t)`: minus sign for negatives, then decimal digits. -/
def int_to_string (i : Int) : String :=
  if i < 0 then "-" ++ nat_repr i.natAbs else nat_repr i.natAbs

/-- Numeric value of a digit character, if it is one. -/
def char_digit_val (c : Char) : Option Nat :=
  if c_isdigit c then some (c.toNat - 48) else none

/-- Accumulating left-to-right decimal evaluation of a digit run. -/
def digitsToNatAux : Nat → List Char → Option Nat
  | acc, [] => some acc
  | acc, c :: rest =>
    match char_digit_val c with
    | some d => digitsToNatAux (acc * 10 + d) rest
    | none => none

/-- The digit-run step of `std::stoll`: longest digit prefix, failure when
it is empty, value negated under a leading minus sign. -/
def parse_int64_digits (l : List Char) (neg : Bool) : Except String Int :=
  match l.takeWhile c_isdigit with
  | [] => .error "stoll: no conversion"
  | ds =>
    match digitsToNatAux 0 ds with
    | some v => .ok (if neg then -(v : Int) else (v : Int))
    | none => .error "stoll: no conversion"

/-- `std::stoll`: skip leading whitespace, optional sign, then the longest
digit run (trailing text ignored); no digits is a conversion failure. -/
def parse_int64 (s : String) : Except String Int :=
  match s.data.dropWhile c_isspace with
  | [] => .error "stoll: no conversion"
  | c :: rest =>
    if c = '-' then parse_int64_digits rest true
    else if c = '+' then parse_int64_digits rest false
    else parse_int64_digits (c :: rest) false

/-- `std::stoul` as used on `VARCHAR(n)` length tokens (digit-only text). -/
def parse_stoul (s : String) : Except String Nat :=
  let ds := s.data.takeWhile c_isdigit
  match ds with
  | [] => .error "stoul: no conversion"
  | _ =>
    match digitsToNatAux 0 ds with
    | some v => .ok v
    | none => .error "stoul: no conversion"

/-! ### Round-trip facts about the decimal conversion -/

theorem char_digit_val_digitChar {n : Nat} (h : n < 10) :
    char_digit_val (Nat.digitChar n) = some n := by
  interval_cases n <;> decide

theorem digitChar_isdigit {n : Nat} (h : n < 10) :
    c_isdigit (Nat.digitChar n) = true := by
  interval_cases n <;> decide

theorem digitsToNatAux_append_some {l₁ : List Char} {acc m : Nat}
    (h : digitsToNatAux acc l₁ = some m) (l₂ : List Char) :
    digitsToNatAux acc (l₁ ++ l₂) = digitsToNatAux m l₂ := by
  induction l₁ generalizing acc with
  | nil =>
    simp only [digitsToNatAux, Option.some.injEq] at h
    simp [h]
  | cons c rest ih =>
    simp only [List.cons_append, digitsToNatAux] at h ⊢
    cases hv : char_digit_val c with
    | none => rw [hv] at h; exact absurd h (by simp)
    | some d => rw [hv] at h; exact ih h

theorem natToDigits_ne_nil {fuel n : Nat} (h : n < fuel) :
    natToDigits fuel n ≠ [] := by
  cases fuel with
  | zero => omega
  | succ f =>
    by_cases h10 : n < 10 <;> simp [natToDigits, h10]

theorem natToDigits_all_digits :
    ∀ fuel n, n < fuel → ∀ c ∈ natToDigits fuel n, c_isdigit c = true := by
  intro fuel
  induction fuel with
  | zero => intro n h; omega
  | succ f ih =>
    intro n h c hc
    by_cases h10 : n < 10
    · simp [natToDigits, h10] at hc
      subst hc
      exact digitChar_isdigit h10
    · simp only [natToDigits, h10, if_false, List.mem_append, List.mem_singleton] at hc
      rcases hc with hc | hc
      · exact ih (n / 10) (by omega) c hc
      · subst hc
        exact digitChar_isdigit (Nat.mod_lt _ (by omega))

theorem digitsToNatAux_natToDigits :
    ∀ fuel n acc, n < fuel →
      digitsToNatAux acc (natToDigits fuel n) =
        some (acc * 10 ^ (natToDigits fuel n).length + n) := by
  intro fuel
  induction fuel with
  | zero => intro n acc h; omega
  | succ f ih =>
    intro n acc h
    by_cases h10 : n < 10
    · simp [natToDigits, h10, digitsToNatAux, char_digit_val_digitChar h10]
    · have hdiv : n / 10 < f := by omega
      have hmod : n % 10 < 10 := Nat.mod_lt n (by omega)
      simp only [natToDigits, if_neg h10]
      rw [digitsToNatAux_append_some (ih (n / 10) acc hdiv)]
      simp only [digitsToNatAux, char_digit_val_digitChar hmod, List.length_append,
        List.length_cons, List.length_nil]
      congr 1
      have h1 : n / 10 * 10 + n % 10 = n := by omega
      calc (acc * 10 ^ (natToDigits f (n / 10)).length + n / 10) * 10 + n % 10
          = acc * (10 ^ (natToDigits f (n / 10)).length * 10) + (n / 10 * 10 + n % 10) := by
            ring
        _ = acc * 10 ^ ((natToDigits f (n / 10)).length + (0 + 1)) + n := by
            rw [h1]; ring

/-- A character recognised by `c_isdigit` is not one of the `c_isspace`
characters, is not a minus sign and is not a plus sign. -/
theorem c_isdigit_classify {c : Char} (h : c_isdigit c = true) :
    c_isspace c = false ∧ c ≠ '-' ∧ c ≠ '+' := by
  refine ⟨?_, ?_, ?_⟩
  · cases hs : c_isspace c
    · rfl
    · simp only [c_isspace, Bool.or_eq_true, decide_eq_true_eq] at hs
      rcases hs with ((((hs | hs) | hs) | hs) | hs) | hs <;> subst hs <;>
        exact absurd h (by decide)
  · intro he; subst he; exact absurd h (by decide)
  · intro he; subst he; exact absurd h (by decide)

theorem takeWhile_digits_natToDigits {fuel n : Nat} (h : n < fuel) :
    (natToDigits fuel n).takeWhile c_isdigit = natToDigits fuel n := by
  apply List.takeWhile_eq_self_iff.mpr
  intro c hc
  exact natToDigits_all_digits fuel n h c hc

theorem parse_int64_digits_natToDigits (n : Nat) (neg : Bool) :
    parse_int64_digits (natToDigits (n + 1) n) neg =
      .ok (if neg then -(n : Int) else (n : Int)) := by
  have hne := natToDigits_ne_nil (show n < n + 1 by omega)
  have htake := takeWhile_digits_natToDigits (show n < n + 1 by omega)
  have hval := digitsToNatAux_natToDigits (n + 1) n 0 (by omega)
  unfold parse_int64_digits
  rw [htake]
  cases hh : natToDigits (n + 1) n with
  | nil => exact absurd hh hne
  | cons c rest =>
    rw [hh] at hval
    simp [hval]

theorem parse_int64_nat_repr (n : Nat) :
    parse_int64 (nat_repr n) = .ok (n : Int) := by
  obtain ⟨c, rest, hl⟩ :=
    List.exists_cons_of_ne_nil (natToDigits_ne_nil (show n < n + 1 by omega))
  have hc : c_isdigit c = true :=
    natToDigits_all_digits (n + 1) n (by omega) c (by rw [hl]; exact List.mem_cons_self c rest)
  obtain ⟨hsp, hminus, hplus⟩ := c_isdigit_classify hc
  have hdata : (nat_repr n).data = c :: rest := by
    show natToDigits (n + 1) n = c :: rest
    exact hl
  have hstep : parse_int64 (nat_repr n) = parse_int64_digits (c :: rest) false := by
    simp [parse_int64, hdata, List.dropWhile_cons, hsp, hminus, hplus]
  rw [hstep, ← hl]
  simpa using parse_int64_digits_natToDigits n false

theorem parse_int64_int_to_string (i : Int) :
    parse_int64 (int_to_string i) = .ok i := by
  by_cases hneg : i < 0
  · have hdata : (int_to_string i).data = '-' :: natToDigits (i.natAbs + 1) i.natAbs := by
      simp only [int_to_string, if_pos hneg, String.data_append]
      rfl
    have hsp : c_isspace '-' = false := by decide
    have hstep : parse_int64 (int_to_string i) =
        parse_int64_digits (natToDigits (i.natAbs + 1) i.natAbs) true := by
      simp [parse_int64, hdata, List.dropWhile_cons, hsp]
    rw [hstep, parse_int64_digits_natToDigits i.natAbs true]
    have h2 : -((i.natAbs : Int)) = i := by omega
    simp [h2]
    rw [abs_of_neg hneg, neg_neg]
  · have hrepr : int_to_string i = nat_repr i.natAbs := by
      simp [int_to_string, hneg]
    rw [hrepr, parse_int64_nat_repr]
    congr 1
    omega

/-! ## Column binding and resolution (ExecutionEngine.cpp, anonymous namespace) -/

/-- `TableBinding` (ExecutionEngine.cpp): one table's schema and one of its
rows viewed under a name; pointers are embedded by value. -/
structure TableBinding where
  schema : TableSchema
  row : List String
  table_name : String
  alias_ : String
deriving DecidableEq, Repr

/-- An `EvaluationContext` is the ordered list of bindings; the C++ struct
additionally caches a name→index `unordered_map` built by `make_context`,
which `ctx_lookup` reproduces functionally. -/
abbrev EvaluationContext := List TableBinding

/-- The lookup map built by `make_context`: for each binding, in order, the
map entry for its `table_name` and (when nonempty) its `alias_` is set to
that binding, later insertions overwriting earlier ones.  So a key resolves
to the LAST binding in the context carrying it. -/
def ctx_lookup : EvaluationContext → String → Option TableBinding
  | [], _ => none
  | b :: rest, key =>
    match ctx_lookup rest key with
    | some r => some r
    | none =>
      if b.table_name = key ∨ (b.alias_ ≠ "" ∧ b.alias_ = key) then some b else none

/-- `resolve_binding` (ExecutionEngine.cpp:56). -/
def resolve_binding (ctx : EvaluationContext) (name : String) : Except String TableBinding :=
  match ctx_lookup ctx name with
  | none => .error ("Unknown table or alias: " ++ name)
  | some b => .ok b

/-- Index-tracking scan of `try_find_column` (ExecutionEngine.cpp:64). -/
def try_find_column_aux : List ColumnSchema → Nat → String → Option (ColumnSchema × Nat)
  | [], _, _ => none
  | c :: rest, i, column_name =>
    if c.name = column_name then some (c, i) else try_find_column_aux rest (i + 1) column_name

/-- `try_find_column` (ExecutionEngine.cpp:64): first column of the schema
with the given name, together with its index. -/
def try_find_column (schema : TableSchema) (column_name : String) : Option (ColumnSchema × Nat) :=
  try_find_column_aux schema.columns 0 column_name

/-- The unqualified-reference scan of `lookup_column` (ExecutionEngine.cpp:96-115):
walk the bindings in order, remember the first schema containing the column,
and fail as ambiguous as soon as a second one contains it. -/
def lookup_scan (name : String) :
    List TableBinding → Option (TableBinding × ColumnSchema × Nat) →
      Except String (TableBinding × ColumnSchema × Nat)
  | [], none => .error ("Column not found: " ++ name)
  | [], some r => .ok r
  | b :: rest, found =>
    match try_find_column b.schema name with
    | none => lookup_scan name rest found
    | some (c, i) =>
      match found with
      | some _ => .error ("Ambiguous column: " ++ name)
      | none => lookup_scan name rest (some (b, c, i))

/-- `lookup_column` (ExecutionEngine.cpp:80): qualified references resolve
the binding through the context map then the column within it; unqualified
references scan all bindings with ambiguity detection. -/
def lookup_column (ctx : EvaluationContext) (table_alias column_name : String) :
    Except String (TableBinding × ColumnSchema × Nat) :=
  if table_alias ≠ "" then
    match resolve_binding ctx table_alias with
    | .error e => .error e
    | .ok b =>
      match try_find_column b.schema column_name with
      | none => .error ("Column not found: " ++ table_alias ++ "." ++ column_name)
      | some (c, i) => .ok (b, c, i)
  else
    lookup_scan column_name ctx none

/-! ## Literal conversion (ExecutionEngine.cpp:132-161) -/

/-- `storage_to_literal` (ExecutionEngine.cpp:132): INT columns parse their
stored text as a 64-bit integer (empty or unparsable text is an error),
VARCHAR columns pass the text through. -/
def storage_to_literal (column : ColumnSchema) (value : String) : Except String LiteralValue :=
  match column.type with
  | .Int =>
    if value = "" then
      .error ("Empty value encountered for INT column: " ++ column.name)
    else
      match parse_int64 value with
      | .ok i => .ok (.int i)
      | .error _ =>
        .error ("Failed to parse INT value for column " ++ column.name ++ ": " ++ value)
  | .Varchar => .ok (.str value)

/-- `literal_to_storage` (ExecutionEngine.cpp:146): INT column requires an
Int literal rendered in decimal; VARCHAR requires a String literal whose
length respects a strictly positive declared maximum. -/
def literal_to_storage (literal : LiteralValue) (column : ColumnSchema) : Except String String :=
  match column.type with
  | .Int =>
    match literal with
    | .int i => .ok (int_to_string i)
    | .str _ => .error ("Type mismatch: column " ++ column.name ++ " expects INT")
  | .Varchar =>
    match literal with
    | .int _ => .error ("Type mismatch: column " ++ column.name ++ " expects VARCHAR")
    | .str s =>
      if 0 < column.length ∧ column.length < s.length then
        .error ("Value for column " ++ column.name ++ " exceeds maximum length")
      else
        .ok s

/-! ## Comparison and condition evaluation (ExecutionEngine.cpp:163-255) -/

/-- `compare_literals` (ExecutionEngine.cpp:163): three-way comparison that
fails when the operand tags differ. -/
def compare_literals (left right : LiteralValue) : Except String Int :=
  match left, right with
  | .int a, .int b => .ok (if a < b then -1 else if b < a then 1 else 0)
  | .str a, .str b => .ok (if a < b then -1 else if b < a then 1 else 0)
  | _, _ => .error "Cannot compare values of different types"

/-- The ordering-operator error messages of `evaluate_comparison`
(ExecutionEngine.cpp:195-214). -/
def ordering_op_error : ComparisonOperator → String
  | .Greater => "> comparisons require INT operands"
  | .Less => "< comparisons require INT operands"
  | .GreaterOrEqual => ">= comparisons require INT operands"
  | .LessOrEqual => "<= comparisons require INT operands"
  | _ => ""

/-- `evaluate_operand` (ExecutionEngine.cpp:219): a column reference reads
the bound row's cell and reconstructs the literal from the column's declared
type; a literal evaluates to itself; other node kinds are rejected. -/
def evaluate_operand (expr : Expression) (ctx : EvaluationContext) : Except String LiteralValue :=
  match expr with
  | .col table_alias column_name =>
    match lookup_column ctx table_alias column_name with
    | .error e => .error e
    | .ok (b, c, i) =>
      match b.row.get? i with
      | none => .error "row index out of range"
      | some raw => storage_to_literal c raw
  | .lit v => .ok v
  | _ => .error "Unsupported operand in expression evaluation"

/-- `evaluate_comparison` (ExecutionEngine.cpp:187): evaluate both operands,
then `=`/`<>` go through `compare_literals` while the four ordering
operators additionally require both operands to carry the Int tag. -/
def evaluate_comparison (op : ComparisonOperator) (l r : Expression)
    (ctx : EvaluationContext) : Except String Bool :=
  match evaluate_operand l ctx with
  | .error e => .error e
  | .ok left =>
    match evaluate_operand r ctx with
    | .error e => .error e
    | .ok right =>
      match op with
      | .Equal =>
        match compare_literals left right with
        | .error e => .error e
        | .ok c => .ok (c = 0)
      | .NotEqual =>
        match compare_literals left right with
        | .error e => .error e
        | .ok c => .ok (¬ c = 0)
      | .Greater =>
        match left, right with
        | .int a, .int b => .ok (b < a)
        | _, _ => .error (ordering_op_error .Greater)
      | .Less =>
        match left, right with
        | .int a, .int b => .ok (a < b)
        | _, _ => .error (ordering_op_error .Less)
      | .GreaterOrEqual =>
        match left, right with
        | .int a, .int b => .ok (b ≤ a)
        | _, _ => .error (ordering_op_error .GreaterOrEqual)
      | .LessOrEqual =>
        match left, right with
        | .int a, .int b => .ok (a ≤ b)
        | _, _ => .error (ordering_op_error .LessOrEqual)

mutual

/-- Structural size of an expression tree, used as recursion fuel for
`evaluate_condition`. -/
def Expression.size : Expression → Nat
  | .col _ _ => 1
  | .lit _ => 1
  | .cmp _ l r => 1 + l.size + r.size
  | .and ts => 1 + expr_list_size ts

/-- Combined size of a list of expressions. -/
def expr_list_size : List Expression → Nat
  | [] => 0
  | t :: rest => t.size + expr_list_size rest

end

/-- The loop body of the And case of `evaluate_condition`
(ExecutionEngine.cpp:245-249): once a term came out false (or failed) the
remaining terms are not evaluated. -/
def and_fold_step (g : Expression → Except String Bool) :
    Except String Bool → Expression → Except String Bool :=
  fun acc t =>
    match acc with
    | .ok true => g t
    | other => other

/-- Fuelled version of `evaluate_condition` (ExecutionEngine.cpp:235) on a
non-null expression: a comparison node evaluates directly; an And node walks
its terms left to right, stopping at the first term that is false or fails;
other node kinds are rejected.  Any `fuel ≥ Expression.size` of the
expression gives the function's value (`evaluate_condition_fuel_congr`). -/
def evaluate_condition_fuel : Nat → Expression → EvaluationContext → Except String Bool
  | 0, _, _ => .error "Unsupported condition expression"
  | _ + 1, .cmp op l r, ctx => evaluate_comparison op l r ctx
  | fuel + 1, .and terms, ctx =>
    terms.foldl (and_fold_step (fun t => evaluate_condition_fuel fuel t ctx)) (.ok true)
  | _ + 1, .col _ _, _ => .error "Unsupported condition expression"
  | _ + 1, .lit _, _ => .error "Unsupported condition expression"

/-- `evaluate_condition` on a non-null expression pointer. -/
def evaluate_condition_expr (e : Expression) (ctx : EvaluationContext) : Except String Bool :=
  evaluate_condition_fuel e.size e ctx

/-- `evaluate_condition` (ExecutionEngine.cpp:235): a null expression
(absent WHERE / ON) is vacuously true. -/
def evaluate_condition (e : Option Expression) (ctx : EvaluationContext) : Except String Bool :=
  match e with
  | none => .ok true
  | some ex => evaluate_condition_expr ex ctx

/-! ### Fuel independence of condition evaluation -/

theorem Expression.size_pos : ∀ e : Expression, 0 < e.size := by
  intro e
  cases e <;> simp [Expression.size]

theorem expr_list_size_le_of_mem {t : Expression} :
    ∀ {ts : List Expression}, t ∈ ts → t.size ≤ expr_list_size ts := by
  intro ts
  induction ts with
  | nil => intro h; cases h
  | cons u rest ih =>
    intro h
    rcases List.mem_cons.mp h with h | h
    · subst h; simp [expr_list_size]
    · have := ih h
      simp only [expr_list_size]
      omega

theorem foldl_and_step_congr (g₁ g₂ : Expression → Except String Bool) :
    ∀ (ts : List Expression), (∀ t ∈ ts, g₁ t = g₂ t) →
      ∀ acc, ts.foldl (and_fold_step g₁) acc = ts.foldl (and_fold_step g₂) acc := by
  intro ts
  induction ts with
  | nil => intro _ acc; rfl
  | cons u rest ih =>
    intro h acc
    simp only [List.foldl_cons]
    have hu : and_fold_step g₁ acc u = and_fold_step g₂ acc u := by
      unfold and_fold_step
      cases acc with
      | error e => rfl
      | ok b => cases b with
        | false => rfl
        | true => exact h u (List.mem_cons_self u rest)
    rw [hu]
    exact ih (fun t ht => h t (List.mem_cons_of_mem u ht)) _

theorem evaluate_condition_fuel_congr :
    ∀ f₁ : Nat, ∀ (e : Expression) (f₂ : Nat) (ctx : EvaluationContext),
      e.size ≤ f₁ → e.size ≤ f₂ →
      evaluate_condition_fuel f₁ e ctx = evaluate_condition_fuel f₂ e ctx := by
  intro f₁
  induction f₁ using Nat.strong_induction_on with
  | _ f₁ ih =>
    intro e f₂ ctx h₁ h₂
    have hpos := Expression.size_pos e
    cases f₁ with
    | zero => omega
    | succ g₁ =>
      cases f₂ with
      | zero => omega
      | succ g₂ =>
        cases e with
        | col a b => rfl
        | lit v => rfl
        | cmp op l r => rfl
        | and ts =>
          simp only [evaluate_condition_fuel]
          apply foldl_and_step_congr
          intro t ht
          have hts : t.size ≤ expr_list_size ts := expr_list_size_le_of_mem ht
          have hsz : Expression.size (.and ts) = 1 + expr_list_size ts := by
            simp [Expression.size]
          exact ih g₁ (by omega) t g₂ ctx (by omega) (by omega)

theorem evaluate_condition_expr_cmp (op : ComparisonOperator) (l r : Expression)
    (ctx : EvaluationContext) :
    evaluate_condition_expr (.cmp op l r) ctx = evaluate_comparison op l r ctx := by
  unfold evaluate_condition_expr
  rw [evaluate_condition_fuel_congr (Expression.size (.cmp op l r)) (.cmp op l r)
    (l.size + r.size + 1) ctx (by simp [Expression.size]) (by simp [Expression.size]; omega)]
  rfl

theorem evaluate_condition_expr_and (ts : List Expression) (ctx : EvaluationContext) :
    evaluate_condition_expr (.and ts) ctx =
      ts.foldl (and_fold_step (fun t => evaluate_condition_expr t ctx)) (.ok true) := by
  unfold evaluate_condition_expr
  rw [evaluate_condition_fuel_congr (Expression.size (.and ts)) (.and ts)
    (expr_list_size ts + 1) ctx (by simp [Expression.size]) (by simp [Expression.size]; omega)]
  simp only [evaluate_condition_fuel]
  apply foldl_and_step_congr
  intro t ht
  exact evaluate_condition_fuel_congr (expr_list_size ts) t t.size ctx
    (expr_list_size_le_of_mem ht) (Nat.le_refl _)

/-! ## Catalog collaborator (CatalogManager.cpp), interface semantics -/

/-- The catalog's in-memory table map, keyed by table name. -/
abbrev Catalog := List TableSchema

/-- `CatalogManager::table_exists` (CatalogManager.cpp:49). -/
def table_exists (cat : Catalog) (table_name : String) : Bool :=
  cat.any (fun s => s.name = table_name)

/-- `CatalogManager::get_table` (CatalogManager.cpp:53). -/
def get_table (cat : Catalog) (table_name : String) : Option TableSchema :=
  cat.find? (fun s => s.name = table_name)

/-- `CatalogManager::create_table` (CatalogManager.cpp:61): fails when the
name is already present, otherwise inserts the schema. -/
def catalog_create_table (cat : Catalog) (schema : TableSchema) : Except String Catalog :=
  if table_exists cat schema.name then
    .error ("Table already exists: " ++ schema.name)
  else
    .ok (cat ++ [schema])

/-- `CatalogManager::drop_table` (CatalogManager.cpp:69). -/
def catalog_drop_table (cat : Catalog) (table_name : String) : Except String Catalog :=
  if table_exists cat table_name then
    .ok (cat.filter (fun s => s.name ≠ table_name))
  else
    .error ("Table does not exist: " ++ table_name)

/-- `CatalogManager::rename_table` (CatalogManager.cpp:77). -/
def catalog_rename_table (cat : Catalog) (old_name new_name : String) : Except String Catalog :=
  if ¬ table_exists cat old_name then
    .error ("Table does not exist: " ++ old_name)
  else if table_exists cat new_name then
    .error ("Target table already exists: " ++ new_name)
  else
    match get_table cat old_name with
    | none => .error ("Table does not exist: " ++ old_name)
    | some schema =>
      .ok (cat.filter (fun s => s.name ≠ old_name) ++ [{ schema with name := new_name }])

/-! ## Storage collaborator (StorageManager.cpp), interface semantics -/

/-- The storage collaborator's row data, keyed by table name (§6 of the
spec: `read_all_rows(name) → ordered list of rows`). -/
abbrev Store := List (String × List (List String))

/-- Rows held for a table, when its backing resource exists. -/
def store_lookup (store : Store) (table_name : String) : Option (List (List String)) :=
  (store.find? (fun p => p.1 = table_name)).map (fun p => p.2)

/-- Replace (or create) a table's rows. -/
def store_set (store : Store) (table_name : String) (rows : List (List String)) : Store :=
  if (store.find? (fun p => p.1 = table_name)).isSome then
    store.map (fun p => if p.1 = table_name then (table_name, rows) else p)
  else
    store ++ [(table_name, rows)]

/-- `StorageManager::read_all_rows` (StorageManager.cpp:257): fails when the
table's backing file cannot be opened. -/
def read_all_rows (store : Store) (table_name : String) : Except String (List (List String)) :=
  match store_lookup store table_name with
  | none => .error ("Failed to open table file for reading: " ++ table_name)
  | some rows => .ok rows

/-! ## Engine state and mutation trace -/

/-- One mutating collaborator call performed by an executor handler. -/
inductive CollabOp where
  | catCreate (name : String)
  | catDrop (name : String)
  | catRename (old_name new_name : String)
  | storCreate (name : String)
  | storDrop (name : String)
  | storRename (old_name new_name : String)
  | storAppend (name : String)
  | storWriteAll (name : String)
deriving DecidableEq, Repr

/-- The `ExecutionEngine`'s collaborators (`catalog_`, `storage_`) plus the
ordered log of the mutating calls the engine has made on them. -/
structure EngineState where
  catalog : Catalog
  storage : Store
  trace : List CollabOp
deriving DecidableEq, Repr

/-- `catalog_->create_table(...)` as a state step. -/
def st_catalog_create (st : EngineState) (schema : TableSchema) : Except String EngineState :=
  match catalog_create_table st.catalog schema with
  | .error e => .error e
  | .ok cat => .ok { st with catalog := cat, trace := st.trace ++ [.catCreate schema.name] }

/-- `catalog_->drop_table(...)` as a state step. -/
def st_catalog_drop (st : EngineState) (table_name : String) : Except String EngineState :=
  match catalog_drop_table st.catalog table_name with
  | .error e => .error e
  | .ok cat => .ok { st with catalog := cat, trace := st.trace ++ [.catDrop table_name] }

/-- `catalog_->rename_table(...)` as a state step. -/
def st_catalog_rename (st : EngineState) (old_name new_name : String) :
    Except String EngineState :=
  match catalog_rename_table st.catalog old_name new_name with
  | .error e => .error e
  | .ok cat =>
    .ok { st with catalog := cat, trace := st.trace ++ [.catRename old_name new_name] }

/-- `storage_->create_table_storage(...)` (StorageManager.cpp:75): truncates
or creates the table's backing resource, leaving it empty of rows. -/
def st_storage_create (st : EngineState) (schema : TableSchema) : EngineState :=
  { st with storage := store_set st.storage schema.name [],
            trace := st.trace ++ [.storCreate schema.name] }

/-- `storage_->drop_table_storage(...)` (StorageManager.cpp:90): removes the
backing resource when it exists; never fails. -/
def st_storage_drop (st : EngineState) (table_name : String) : EngineState :=
  { st with storage := st.storage.filter (fun p => p.1 ≠ table_name),
            trace := st.trace ++ [.storDrop table_name] }

/-- `storage_->rename_table_storage(...)` (StorageManager.cpp:97): renames
the backing resource when present, a silent no-op when absent. -/
def st_storage_rename (st : EngineState) (old_name new_name : String) : EngineState :=
  let storage :=
    match store_lookup st.storage old_name with
    | none => st.storage
    | some rows => store_set (st.storage.filter (fun p => p.1 ≠ old_name)) new_name rows
  { st with storage := storage, trace := st.trace ++ [.storRename old_name new_name] }

/-- `storage_->append_row(...)` (StorageManager.cpp:280). -/
def st_storage_append (st : EngineState) (table_name : String) (values : List String) :
    EngineState :=
  let storage :=
    match store_lookup st.storage table_name with
    | none => store_set st.storage table_name [values]
    | some rows => store_set st.storage table_name (rows ++ [values])
  { st with storage := storage, trace := st.trace ++ [.storAppend table_name] }

/-- `storage_->write_all_rows(...)` (StorageManager.cpp:289): full overwrite. -/
def st_storage_write_all (st : EngineState) (table_name : String)
    (rows : List (List String)) : EngineState :=
  { st with storage := store_set st.storage table_name rows,
            trace := st.trace ++ [.storWriteAll table_name] }

/-! ## DDL handlers (ExecutionEngine.cpp:339-453) -/

/-- `format_success` (ExecutionEngine.cpp:257). -/
def format_success (message : String) : String :=
  "OK: " ++ message

/-- `ExecutionEngine::handle_create_table` (ExecutionEngine.cpp:339): build
the schema from the column definitions, then catalog creation, then storage
creation.  A catalog failure aborts before any storage call. -/
def handle_create_table (st : EngineState) (statement : CreateTableStatement) :
    EngineState × Except String String :=
  let schema : TableSchema :=
    { name := statement.table_name,
      columns := statement.columns.map (fun c => { name := c.name, type := c.type, length := c.length }) }
  match st_catalog_create st schema with
  | .error e => (st, .error e)
  | .ok st₁ =>
    (st_storage_create st₁ schema, .ok (format_success ("Table created: " ++ schema.name)))

/-- `ExecutionEngine::handle_drop_table` (ExecutionEngine.cpp:357): catalog
drop first, storage drop second. -/
def handle_drop_table (st : EngineState) (statement : DropTableStatement) :
    EngineState × Except String String :=
  match st_catalog_drop st statement.table_name with
  | .error e => (st, .error e)
  | .ok st₁ =>
    (st_storage_drop st₁ statement.table_name,
      .ok (format_success ("Table dropped: " ++ statement.table_name)))

/-- The `RenameTable` arm of `ExecutionEngine::handle_alter_table`
(ExecutionEngine.cpp:365-379): existence checks, then storage rename, then
catalog rename. -/
def handle_alter_rename (st : EngineState) (old_name new_name : String) :
    EngineState × Except String String :=
  if ¬ table_exists st.catalog old_name then
    (st, .error ("Table does not exist: " ++ old_name))
  else if table_exists st.catalog new_name then
    (st, .error ("Target table already exists: " ++ new_name))
  else
    let st₁ := st_storage_rename st old_name new_name
    match st_catalog_rename st₁ old_name new_name with
    | .error e => (st₁, .error e)
    | .ok st₂ =>
      (st₂, .ok (format_success ("Table renamed: " ++ old_name ++ " -> " ++ new_name)))

/-! ## DML handlers: UPDATE and DELETE (ExecutionEngine.cpp:476-546) -/

/-- The single-table binding both `handle_update` and `handle_delete` build
per row (ExecutionEngine.cpp:502, 532): table name and alias are both the
schema's name. -/
def single_binding (schema : TableSchema) (row : List String) : TableBinding :=
  { schema := schema, row := row, table_name := schema.name, alias_ := schema.name }

/-- The up-front assignment resolution loop of `handle_update`
(ExecutionEngine.cpp:488-496): target column index and converted storage
text per `SET` assignment, failing on an unknown column or a conversion
error. -/
def resolve_assignments (schema : TableSchema) :
    List Assignment → Except String (List (Nat × String))
  | [] => .ok []
  | a :: rest =>
    match try_find_column schema a.column_name with
    | none => .error ("Column does not exist: " ++ a.column_name)
    | some (c, i) =>
      match literal_to_storage a.value c with
      | .error e => .error e
      | .ok sv =>
        match resolve_assignments schema rest with
        | .error e => .error e
        | .ok tail => .ok ((i, sv) :: tail)

/-- In-place application of all assignments to one row
(ExecutionEngine.cpp:505-507). -/
def apply_assignments (ivs : List (Nat × String)) (row : List String) : List String :=
  ivs.foldl (fun r iv => r.set iv.1 iv.2) row

/-- The row loop of `handle_update` (ExecutionEngine.cpp:501-510): rewritten
rows together with the affected count; a WHERE evaluation error aborts. -/
def update_pass (schema : TableSchema) (ivs : List (Nat × String))
    (wh : Option Expression) : List (List String) → Except String (List (List String) × Nat)
  | [] => .ok ([], 0)
  | row :: rest =>
    match evaluate_condition wh [single_binding schema row] with
    | .error e => .error e
    | .ok true =>
      match update_pass schema ivs wh rest with
      | .error e => .error e
      | .ok (rs, n) => .ok (apply_assignments ivs row :: rs, n + 1)
    | .ok false =>
      match update_pass schema ivs wh rest with
      | .error e => .error e
      | .ok (rs, n) => .ok (row :: rs, n)

/-- `ExecutionEngine::handle_update` (ExecutionEngine.cpp:476): schema
lookup, assignment resolution, full read, per-row filter-and-assign, and a
full rewrite only when at least one row was affected. -/
def handle_update (st : EngineState) (statement : UpdateStatement) :
    EngineState × Except String String :=
  match get_table st.catalog statement.table_name with
  | none => (st, .error ("Table does not exist: " ++ statement.table_name))
  | some schema =>
    match resolve_assignments schema statement.assignments with
    | .error e => (st, .error e)
    | .ok ivs =>
      match read_all_rows st.storage statement.table_name with
      | .error e => (st, .error e)
      | .ok rows =>
        match update_pass schema ivs statement.where_expr rows with
        | .error e => (st, .error e)
        | .ok (rows', affected) =>
          let st' :=
            if 0 < affected then st_storage_write_all st statement.table_name rows' else st
          (st', .ok (format_success
            (nat_repr affected ++ " row(s) updated in " ++ statement.table_name)))

/-- The row loop of `handle_delete` (ExecutionEngine.cpp:531-539): kept rows
(WHERE false) and the removed count (WHERE true). -/
def delete_pass (schema : TableSchema) (wh : Option Expression) :
    List (List String) → Except String (List (List String) × Nat)
  | [] => .ok ([], 0)
  | row :: rest =>
    match evaluate_condition wh [single_binding schema row] with
    | .error e => .error e
    | .ok true =>
      match delete_pass schema wh rest with
      | .error e => .error e
      | .ok (kept, n) => .ok (kept, n + 1)
    | .ok false =>
      match delete_pass schema wh rest with
      | .error e => .error e
      | .ok (kept, n) => .ok (row :: kept, n)

/-- `ExecutionEngine::handle_delete` (ExecutionEngine.cpp:519): schema
lookup, full read, partition into kept and removed, and a full rewrite of
the kept rows only when at least one row was removed. -/
def handle_delete (st : EngineState) (statement : DeleteStatement) :
    EngineState × Except String String :=
  match get_table st.catalog statement.table_name with
  | none => (st, .error ("Table does not exist: " ++ statement.table_name))
  | some schema =>
    match read_all_rows st.storage statement.table_name with
    | .error e => (st, .error e)
    | .ok rows =>
      match delete_pass schema statement.where_expr rows with
      | .error e => (st, .error e)
      | .ok (kept, removed) =>
        let st' :=
          if 0 < removed then st_storage_write_all st statement.table_name kept else st
        (st', .ok (format_success
          (nat_repr removed ++ " row(s) deleted from " ++ statement.table_name)))

/-! ## SELECT: nested-loop join, WHERE filter, projection
(ExecutionEngine.cpp:548-697) -/

/-- `TableData` (ExecutionEngine.cpp:548). -/
structure TableData where
  schema : TableSchema
  table_name : String
  alias_ : String
  rows : List (List String)
deriving DecidableEq, Repr

/-- `load_table_data` (ExecutionEngine.cpp:555): schema from the catalog
(error when absent), effective alias defaulting to the table name, rows from
storage. -/
def load_table_data (cat : Catalog) (store : Store) (reference : TableReference) :
    Except String TableData :=
  match get_table cat reference.table_name with
  | none => .error ("Table does not exist: " ++ reference.table_name)
  | some schema =>
    match read_all_rows store reference.table_name with
    | .error e => .error e
    | .ok rows =>
      .ok { schema := schema, table_name := reference.table_name,
            alias_ := if reference.alias_ = "" then reference.table_name else reference.alias_,
            rows := rows }

/-- `make_binding` (ExecutionEngine.cpp:569). -/
def make_binding (data : TableData) (row : List String) : TableBinding :=
  { schema := data.schema, row := row, table_name := data.table_name, alias_ := data.alias_ }

/-- The inner loop of the join step (ExecutionEngine.cpp:640-647): extend one
existing row group with every row of the joined table, keeping each
candidate iff the ON condition evaluates true over the full candidate. -/
def join_group_rows (cond : Option Expression) (jd : TableData)
    (existing : List TableBinding) :
    List (List String) → Except String (List (List TableBinding))
  | [] => .ok []
  | r :: rest =>
    let candidate := existing ++ [make_binding jd r]
    match evaluate_condition cond candidate with
    | .error e => .error e
    | .ok true =>
      match join_group_rows cond jd existing rest with
      | .error e => .error e
      | .ok groups => .ok (candidate :: groups)
    | .ok false => join_group_rows cond jd existing rest

/-- One join clause's nested loop (ExecutionEngine.cpp:638-649): outer loop
over the current row groups, inner loop over the joined table's rows. -/
def join_step (cond : Option Expression) (jd : TableData) :
    List (List TableBinding) → Except String (List (List TableBinding))
  | [] => .ok []
  | g :: gs =>
    match join_group_rows cond jd g jd.rows with
    | .error e => .error e
    | .ok here =>
      match join_step cond jd gs with
      | .error e => .error e
      | .ok rest => .ok (here ++ rest)

/-- The join loop of `handle_select` (ExecutionEngine.cpp:633-650): for each
join clause in statement order, load the joined table, run one nested-loop
step, and replace the working set of row groups. -/
def select_join_loop (cat : Catalog) (store : Store) :
    List JoinClause → List TableData × List (List TableBinding) →
      Except String (List TableData × List (List TableBinding))
  | [], acc => .ok acc
  | clause :: rest, (tables, groups) =>
    match load_table_data cat store clause.table with
    | .error e => .error e
    | .ok jd =>
      match join_step clause.condition jd groups with
      | .error e => .error e
      | .ok next => select_join_loop cat store rest (tables ++ [jd], next)

/-- The WHERE filter over surviving row groups (ExecutionEngine.cpp:652-661),
also the specification's per-candidate keep-iff-true filter. -/
def filter_condition (cond : Option Expression) :
    List (List TableBinding) → Except String (List (List TableBinding))
  | [] => .ok []
  | g :: gs =>
    match evaluate_condition cond g with
    | .error e => .error e
    | .ok true =>
      match filter_condition cond gs with
      | .error e => .error e
      | .ok rest => .ok (g :: rest)
    | .ok false => filter_condition cond gs

/-- `find_table_data` (ExecutionEngine.cpp:573): first table in the sequence
whose alias or real name is the key. -/
def find_table_data (tables : List TableData) (key : String) : Option TableData :=
  tables.find? (fun t => t.alias_ = key || t.table_name = key)

/-- Headers contributed by one table under a wildcard
(ExecutionEngine.cpp:588-600): `alias.column` per column. -/
def table_headers (td : TableData) : List String :=
  td.schema.columns.map (fun c => td.alias_ ++ "." ++ c.name)

/-- `build_headers` (ExecutionEngine.cpp:582-615). -/
def build_headers (tables : List TableData) : List SelectItem → Except String (List String)
  | [] => .ok []
  | item :: rest =>
    let here : Except String (List String) :=
      if item.is_wildcard then
        if item.table_alias = "" then
          .ok (tables.foldr (fun td acc => table_headers td ++ acc) [])
        else
          match find_table_data tables item.table_alias with
          | none => .error ("Unknown table alias in wildcard: " ++ item.table_alias)
          | some td => .ok (table_headers td)
      else
        .ok [if item.alias_ ≠ "" then item.alias_
             else if item.table_alias ≠ "" then item.table_alias ++ "." ++ item.column_name
             else item.column_name]
    match here with
    | .error e => .error e
    | .ok hs =>
      match build_headers tables rest with
      | .error e => .error e
      | .ok tl => .ok (hs ++ tl)

/-- The `row->at(i)` loop over one binding's columns
(ExecutionEngine.cpp:675-677, 681-683): the first `n` cells of the row,
failing like `std::vector::at` when the row is shorter. -/
def take_exact (row : List String) (n : Nat) : Except String (List String) :=
  if row.length < n then .error "row index out of range" else .ok (row.take n)

/-- The bare-`*` projection loop (ExecutionEngine.cpp:673-678): every table
of the FROM/JOIN sequence, resolved through the context, in order. -/
def wildcard_row (ctx : EvaluationContext) :
    List TableData → Except String (List String)
  | [] => .ok []
  | td :: rest =>
    match resolve_binding ctx td.alias_ with
    | .error e => .error e
    | .ok b =>
      match take_exact b.row b.schema.columns.length with
      | .error e => .error e
      | .ok vals =>
        match wildcard_row ctx rest with
        | .error e => .error e
        | .ok tl => .ok (vals ++ tl)

/-- Projection of one select item for one row group
(ExecutionEngine.cpp:670-691). -/
def project_item (ctx : EvaluationContext) (tables : List TableData) (item : SelectItem) :
    Except String (List String) :=
  if item.is_wildcard then
    if item.table_alias = "" then
      wildcard_row ctx tables
    else
      match resolve_binding ctx item.table_alias with
      | .error e => .error e
      | .ok b => take_exact b.row b.schema.columns.length
  else
    match lookup_column ctx item.table_alias item.column_name with
    | .error e => .error e
    | .ok (b, _, i) =>
      match b.row.get? i with
      | none => .error "row index out of range"
      | some v => .ok [v]

/-- Projection of the whole select list for one row group
(ExecutionEngine.cpp:667-693). -/
def project_row (ctx : EvaluationContext) (tables : List TableData) :
    List SelectItem → Except String (List String)
  | [] => .ok []
  | item :: rest =>
    match project_item ctx tables item with
    | .error e => .error e
    | .ok vals =>
      match project_row ctx tables rest with
      | .error e => .error e
      | .ok tl => .ok (vals ++ tl)

/-- The output-row loop (ExecutionEngine.cpp:667-694). -/
def project_rows (tables : List TableData) (items : List SelectItem) :
    List (List TableBinding) → Except String (List (List String))
  | [] => .ok []
  | g :: gs =>
    match project_row g tables items with
    | .error e => .error e
    | .ok row =>
      match project_rows tables items gs with
      | .error e => .error e
      | .ok rest => .ok (row :: rest)

/-- `ExecutionEngine::handle_select` (ExecutionEngine.cpp:617): load the
primary table, seed one-binding row groups, run the join loop clause by
clause, filter by WHERE when present, then build headers and project every
surviving row group.  The final fixed-width text formatting
(`format_result_table`) is not modelled; the returned pair is exactly the
`(headers, result_rows)` it would receive. -/
def handle_select (st : EngineState) (statement : SelectStatement) :
    Except String (List String × List (List String)) :=
  match load_table_data st.catalog st.storage statement.primary_table with
  | .error e => .error e
  | .ok primary =>
    let groups := primary.rows.map (fun r => [make_binding primary r])
    match select_join_loop st.catalog st.storage statement.joins ([primary], groups) with
    | .error e => .error e
    | .ok (tables, joined) =>
      let filtered : Except String (List (List TableBinding)) :=
        match statement.where_expr with
        | none => .ok joined
        | some w => filter_condition (some w) joined
      match filtered with
      | .error e => .error e
      | .ok final_groups =>
        match build_headers tables statement.select_list with
        | .error e => .error e
        | .ok headers =>
          match project_rows tables statement.select_list final_groups with
          | .error e => .error e
          | .ok rows => .ok (headers, rows)

/-! ## Specification-side join definition (for the refinement claim)

Written from the specification's words (§4.4): at each step the candidates
are every (existing group, new-table row) pair, in order, and a candidate is
kept iff the clause's ON condition evaluates true over the full candidate's
bindings; steps are applied left-to-right in statement order. -/

/-- Spec wording: all candidate groups of one step — every existing group
extended with every row of the new table. -/
def spec_candidates (jd : TableData) (groups : List (List TableBinding)) :
    List (List TableBinding) :=
  groups.foldr (fun g acc => jd.rows.map (fun r => g ++ [make_binding jd r]) ++ acc) []

/-- Spec wording: one iterated inner join step — filter the candidates by
the ON condition. -/
def spec_inner_join (cond : Option Expression) (jd : TableData)
    (groups : List (List TableBinding)) : Except String (List (List TableBinding)) :=
  filter_condition cond (spec_candidates jd groups)

/-- Spec wording: the iterated inner joins applied left-to-right in the
order written, with each clause's table loaded as the step is reached. -/
def spec_join_loop (cat : Catalog) (store : Store) :
    List JoinClause → List TableData × List (List TableBinding) →
      Except String (List TableData × List (List TableBinding))
  | [], acc => .ok acc
  | clause :: rest, (tables, groups) =>
    match load_table_data cat store clause.table with
    | .error e => .error e
    | .ok jd =>
      match spec_inner_join clause.condition jd groups with
      | .error e => .error e
      | .ok next => spec_join_loop cat store rest (tables ++ [jd], next)

/-! ## Tokenizer (SQLParser.cpp:35-134) -/

/-- `TokenKind` (SQLParser.cpp:22). -/
inductive TokenKind where
  | Identifier
  | Number
  | String
  | Symbol
  | End
deriving DecidableEq, Repr

/-- `Token` (SQLParser.cpp:30). -/
structure Token where
  kind : TokenKind
  text : String
deriving DecidableEq, Repr

/-- `Tokenizer::consume_string` (SQLParser.cpp:99) after the opening quote:
doubled quotes unescape to one quote, a lone quote closes, running off the
end is an unterminated-literal error.  Returns the token text and the
remaining input. -/
def consume_string_body : List Char → Except String (List Char × List Char)
  | [] => .error "Unterminated string literal"
  | '\'' :: '\'' :: rest =>
    match consume_string_body rest with
    | .error e => .error e
    | .ok (v, r) => .ok ('\'' :: v, r)
  | '\'' :: rest => .ok ([], rest)
  | c :: rest =>
    match consume_string_body rest with
    | .error e => .error e
    | .ok (v, r) => .ok (c :: v, r)

/-- `Tokenizer::consume_symbol` (SQLParser.cpp:119): greedy multi-character
symbols (`<>`, `<=`, `>=`) first, then ANY single character becomes a
one-character Symbol token — there is no rejection of unrecognised
characters. -/
def consume_symbol : List Char → Token × List Char
  | input =>
    if ['<', '>'].isPrefixOf input then (⟨.Symbol, "<>"⟩, input.drop 2)
    else if ['<', '='].isPrefixOf input then (⟨.Symbol, "<="⟩, input.drop 2)
    else if ['>', '='].isPrefixOf input then (⟨.Symbol, ">="⟩, input.drop 2)
    else
      match input with
      | [] => (⟨.Symbol, ""⟩, [])
      | c :: rest => (⟨.Symbol, String.mk [c]⟩, rest)

/-- `Tokenizer::next_token` (SQLParser.cpp:50): skip whitespace, then
classify by the first character — letter/underscore starts an identifier,
digit a number, a quote a string literal, anything else a symbol. -/
def next_token (input : List Char) : Except String (Token × List Char) :=
  let input := input.dropWhile c_isspace
  match input with
  | [] => .ok (⟨.End, ""⟩, [])
  | c :: rest =>
    if c_isalpha c || c = '_' then
      .ok (⟨.Identifier, String.mk ((c :: rest).takeWhile (fun ch => c_isalnum ch || ch = '_'))⟩,
        (c :: rest).dropWhile (fun ch => c_isalnum ch || ch = '_'))
    else if c_isdigit c then
      .ok (⟨.Number, String.mk ((c :: rest).takeWhile c_isdigit)⟩,
        (c :: rest).dropWhile c_isdigit)
    else if c = '\'' then
      match consume_string_body rest with
      | .error e => .error e
      | .ok (v, r) => .ok (⟨.String, String.mk v⟩, r)
    else
      .ok (consume_symbol (c :: rest))

/-- The `do { token = next_token(); push } while (kind != End)` loop of
`Tokenizer::tokenize` (SQLParser.cpp:39), fuelled by the input length. -/
def tokenize_fuel : Nat → List Char → Except String (List Token)
  | 0, _ => .error "tokenizer fuel exhausted"
  | fuel + 1, input =>
    match next_token input with
    | .error e => .error e
    | .ok (tok, rest) =>
      if tok.kind = .End then .ok [tok]
      else
        match tokenize_fuel fuel rest with
        | .error e => .error e
        | .ok toks => .ok (tok :: toks)

/-- `Tokenizer::tokenize` (SQLParser.cpp:39): every call of `next_token` on
a nonempty input consumes at least one character, so `length + 1` fuel always
suffices. -/
def tokenize (s : String) : Except String (List Token) :=
  tokenize_fuel (s.data.length + 1) s.data

/-! ## Token cursor and column-definition parsing (SQLParser.cpp:136-293) -/

/-- `TokenStream` (SQLParser.cpp:136): token list plus cursor position. -/
structure TokenStream where
  tokens : List Token
  position : Nat
deriving DecidableEq, Repr

/-- `TokenStream::peek` (SQLParser.cpp:140) at a given offset (the C++
default offset is 0): out-of-range reads yield the End token. -/
def TokenStream.peek (ts : TokenStream) (offset : Nat) : Token :=
  ts.tokens.getD (ts.position + offset) ⟨.End, ""⟩

/-- `TokenStream::consume` (SQLParser.cpp:150). -/
def TokenStream.consume (ts : TokenStream) : Token × TokenStream :=
  (ts.peek 0,
    if ts.position < ts.tokens.length then { ts with position := ts.position + 1 } else ts)

/-- `TokenStream::match_symbol` (SQLParser.cpp:158): consume iff the next
token is that symbol. -/
def TokenStream.match_symbol (ts : TokenStream) (symbol : String) : Bool × TokenStream :=
  if (ts.peek 0).kind = .Symbol ∧ (ts.peek 0).text = symbol then (true, (ts.consume).2)
  else (false, ts)

/-- `TokenStream::expect_symbol` (SQLParser.cpp:166). -/
def TokenStream.expect_symbol (ts : TokenStream) (symbol : String) :
    Except String TokenStream :=
  match ts.match_symbol symbol with
  | (true, ts') => .ok ts'
  | (false, _) => .error ("Expected symbol '" ++ symbol ++ "'")

/-- `TokenStream::consume_identifier` (SQLParser.cpp:187). -/
def TokenStream.consume_identifier (ts : TokenStream) (context : String) :
    Except String (String × TokenStream) :=
  if (ts.peek 0).kind = .Identifier then .ok ((ts.peek 0).text, (ts.consume).2)
  else .error ("Expected identifier for " ++ context)

/-- `TokenStream::consume_number` (SQLParser.cpp:196). -/
def TokenStream.consume_number (ts : TokenStream) (context : String) :
    Except String (String × TokenStream) :=
  if (ts.peek 0).kind = .Number then .ok ((ts.peek 0).text, (ts.consume).2)
  else .error ("Expected numeric literal for " ++ context)

/-- `to_upper` (SQLParser.cpp:239): ASCII upper-casing. -/
def to_upper (s : String) : String :=
  String.mk (s.data.map Char.toUpper)

/-- `parse_column_definition_tail` (SQLParser.cpp:267): `INT` takes no
argument and gets the default length; `VARCHAR` optionally takes a
parenthesised length, whose absence gives the default 255 — the written
length is accepted verbatim, `0` included. -/
def parse_column_definition_tail (ts : TokenStream) (column : ColumnDefinition) :
    Except String (ColumnDefinition × TokenStream) :=
  match ts.consume_identifier "column type" with
  | .error e => .error e
  | .ok (type_token, ts₁) =>
    if to_upper type_token = "INT" then
      .ok ({ column with type := .Int, length := default_length .Int }, ts₁)
    else if to_upper type_token = "VARCHAR" then
      match ts₁.match_symbol "(" with
      | (true, ts₂) =>
        match ts₂.consume_number "VARCHAR length" with
        | .error e => .error e
        | .ok (length_str, ts₃) =>
          match ts₃.expect_symbol ")" with
          | .error e => .error e
          | .ok ts₄ =>
            match parse_stoul length_str with
            | .error e => .error e
            | .ok n => .ok ({ column with type := .Varchar, length := n }, ts₄)
      | (false, ts₂) =>
        .ok ({ column with type := .Varchar, length := default_length .Varchar }, ts₂)
    else
      .error ("Unsupported column type: " ++ type_token)

/-! ## Lemmas: the nested-loop join is the iterated inner join -/

theorem join_group_rows_eq_filter (cond : Option Expression) (jd : TableData)
    (existing : List TableBinding) :
    ∀ rows, join_group_rows cond jd existing rows =
      filter_condition cond (rows.map (fun r => existing ++ [make_binding jd r])) := by
  intro rows
  induction rows with
  | nil => rfl
  | cons r rest ih =>
    simp only [join_group_rows, List.map_cons, filter_condition]
    cases evaluate_condition cond (existing ++ [make_binding jd r]) with
    | error e => rfl
    | ok b =>
      cases b with
      | true => rw [ih]
      | false => exact ih

theorem filter_condition_append (cond : Option Expression) :
    ∀ l₁ l₂, filter_condition cond (l₁ ++ l₂) =
      match filter_condition cond l₁ with
      | .error e => .error e
      | .ok r₁ =>
        match filter_condition cond l₂ with
        | .error e => .error e
        | .ok r₂ => .ok (r₁ ++ r₂) := by
  intro l₁ l₂
  induction l₁ with
  | nil =>
    simp only [List.nil_append, filter_condition]
    cases filter_condition cond l₂ <;> rfl
  | cons g gs ih =>
    cases h : evaluate_condition cond g with
    | error e => simp [filter_condition, h]
    | ok b =>
      cases b with
      | false =>
        simp only [List.cons_append, filter_condition, h, List.append_eq]
        exact ih
      | true =>
        simp only [List.cons_append, filter_condition, h, List.append_eq]
        rw [ih]
        cases filter_condition cond gs with
        | error e => rfl
        | ok r₁ => cases filter_condition cond l₂ <;> rfl

theorem filter_condition_append_error_left {cond : Option Expression}
    {l₁ : List (List TableBinding)} {e : String}
    (h₁ : filter_condition cond l₁ = .error e) (l₂ : List (List TableBinding)) :
    filter_condition cond (l₁ ++ l₂) = .error e := by
  rw [filter_condition_append, h₁]

theorem filter_condition_append_error_right {cond : Option Expression}
    {l₁ l₂ : List (List TableBinding)} {r₁ : List (List TableBinding)} {e : String}
    (h₁ : filter_condition cond l₁ = .ok r₁) (h₂ : filter_condition cond l₂ = .error e) :
    filter_condition cond (l₁ ++ l₂) = .error e := by
  rw [filter_condition_append, h₁, h₂]

theorem filter_condition_append_ok {cond : Option Expression}
    {l₁ l₂ r₁ r₂ : List (List TableBinding)}
    (h₁ : filter_condition cond l₁ = .ok r₁) (h₂ : filter_condition cond l₂ = .ok r₂) :
    filter_condition cond (l₁ ++ l₂) = .ok (r₁ ++ r₂) := by
  rw [filter_condition_append, h₁, h₂]

theorem join_step_eq_spec (cond : Option Expression) (jd : TableData) :
    ∀ groups, join_step cond jd groups = spec_inner_join cond jd groups := by
  intro groups
  induction groups with
  | nil => rfl
  | cons g gs ih =>
    have hjg := join_group_rows_eq_filter cond jd g jd.rows
    have hcand : spec_candidates jd (g :: gs) =
        jd.rows.map (fun r => g ++ [make_binding jd r]) ++ spec_candidates jd gs := rfl
    cases h₁ : filter_condition cond (jd.rows.map (fun r => g ++ [make_binding jd r])) with
    | error e =>
      have hL : join_step cond jd (g :: gs) = .error e := by
        simp only [join_step, hjg, h₁]
      have hR : spec_inner_join cond jd (g :: gs) = .error e := by
        unfold spec_inner_join
        rw [hcand]
        exact filter_condition_append_error_left h₁ _
      rw [hL, hR]
    | ok here =>
      cases h₂ : filter_condition cond (spec_candidates jd gs) with
      | error e =>
        have hL : join_step cond jd (g :: gs) = .error e := by
          simp only [join_step, hjg, h₁, ih, spec_inner_join, h₂]
        have hR : spec_inner_join cond jd (g :: gs) = .error e := by
          unfold spec_inner_join
          rw [hcand]
          exact filter_condition_append_error_right h₁ h₂
        rw [hL, hR]
      | ok rest =>
        have hL : join_step cond jd (g :: gs) = .ok (here ++ rest) := by
          simp only [join_step, hjg, h₁, ih, spec_inner_join, h₂]
        have hR : spec_inner_join cond jd (g :: gs) = .ok (here ++ rest) := by
          unfold spec_inner_join
          rw [hcand]
          exact filter_condition_append_ok h₁ h₂
        rw [hL, hR]

theorem select_join_loop_eq_spec (cat : Catalog) (store : Store) :
    ∀ (clauses : List JoinClause) (acc : List TableData × List (List TableBinding)),
      select_join_loop cat store clauses acc = spec_join_loop cat store clauses acc := by
  intro clauses
  induction clauses with
  | nil => intro acc; rfl
  | cons clause rest ih =>
    intro acc
    obtain ⟨tables, groups⟩ := acc
    cases h : load_table_data cat store clause.table with
    | error e => simp only [select_join_loop, spec_join_loop, h]
    | ok jd =>
      cases h₂ : spec_inner_join clause.condition jd groups with
      | error e =>
        simp only [select_join_loop, spec_join_loop, h, join_step_eq_spec, h₂]
      | ok next =>
        simp only [select_join_loop, spec_join_loop, h, join_step_eq_spec, h₂]
        exact ih _

/-! ## Concrete data for the worked examples -/

/-- Catalog of the spec's scenario 3: `a(id INT)`, `b(aid INT, tag VARCHAR)`. -/
def c1_catalog : Catalog :=
  [⟨"a", [⟨"id", .Int, 4⟩]⟩,
   ⟨"b", [⟨"aid", .Int, 4⟩, ⟨"tag", .Varchar, 255⟩]⟩]

/-- Stored rows of scenario 3: a = (1),(2); b = (1,'x'),(1,'y'),(3,'z'). -/
def c1_store : Store :=
  [("a", [["1"], ["2"]]), ("b", [["1", "x"], ["1", "y"], ["3", "z"]])]

def c1_state : EngineState := ⟨c1_catalog, c1_store, []⟩

/-- `SELECT * FROM a JOIN b ON a.id = b.aid;` as parsed. -/
def c1_select : SelectStatement :=
  { select_list := [⟨true, "", "", ""⟩],
    primary_table := ⟨"a", ""⟩,
    joins := [⟨⟨"b", ""⟩, some (.cmp .Equal (.col "a" "id") (.col "b" "aid"))⟩],
    where_expr := none }

/-- C1: For every SELECT with a primary table and an ordered list of join
clauses, the surviving row groups of the nested-loop join equal the result
of iterated inner joins applied left-to-right in statement order, each step
keeping a (group, row) candidate iff the clause's ON condition evaluates
true over the full candidate's bindings; and on tables a(id)={(1),(2)},
b(aid,tag)={(1,x),(1,y),(3,z)}, `SELECT * FROM a JOIN b ON a.id = b.aid`
yields exactly the rows (1,1,x) and (1,1,y). -/
theorem C1_join_is_iterated_inner_join :
    (∀ (cat : Catalog) (store : Store) (clauses : List JoinClause)
        (tables : List TableData) (groups : List (List TableBinding)),
      select_join_loop cat store clauses (tables, groups) =
        spec_join_loop cat store clauses (tables, groups)) ∧
    handle_select c1_state c1_select =
      .ok (["a.id", "b.aid", "b.tag"], [["1", "1", "x"], ["1", "1", "y"]]) := by
  constructor
  · intro cat store clauses tables groups
    exact select_join_loop_eq_spec cat store clauses (tables, groups)
  · rfl

/-! ## C2: column resolution -/

/-- Number of bindings in the context whose schema contains the column. -/
def column_match_count (ctx : EvaluationContext) (name : String) : Nat :=
  ctx.countP (fun b => (try_find_column b.schema name).isSome)

theorem lookup_scan_error_of_hit {name : String} :
    ∀ (bs : List TableBinding) (r : TableBinding × ColumnSchema × Nat),
      (∃ b ∈ bs, (try_find_column b.schema name).isSome) →
      lookup_scan name bs (some r) = .error ("Ambiguous column: " ++ name) := by
  intro bs
  induction bs with
  | nil => intro r h; obtain ⟨b, hb, _⟩ := h; cases hb
  | cons b rest ih =>
    intro r h
    cases hfc : try_find_column b.schema name with
    | some ci => simp [lookup_scan, hfc]
    | none =>
      obtain ⟨u, hu, hus⟩ := h
      rcases List.mem_cons.mp hu with hu | hu
      · subst hu; rw [hfc] at hus; cases hus
      · simp only [lookup_scan, hfc]
        exact ih r ⟨u, hu, hus⟩

theorem lookup_scan_ambiguous {name : String} :
    ∀ bs : List TableBinding, 2 ≤ column_match_count bs name →
      lookup_scan name bs none = .error ("Ambiguous column: " ++ name) := by
  intro bs
  induction bs with
  | nil => intro h; simp [column_match_count] at h
  | cons b rest ih =>
    intro h
    cases hfc : try_find_column b.schema name with
    | none =>
      simp only [lookup_scan, hfc]
      apply ih
      simp only [column_match_count, List.countP_cons, hfc] at h ⊢
      simpa using h
    | some ci =>
      simp only [lookup_scan, hfc]
      apply lookup_scan_error_of_hit
      have h' : column_match_count (b :: rest) name = column_match_count rest name + 1 := by
        simp [column_match_count, List.countP_cons, hfc]
      have hrest : 0 < List.countP (fun x => (try_find_column x.schema name).isSome) rest := by
        have h0 : 0 < column_match_count rest name := by omega
        simpa [column_match_count] using h0
      obtain ⟨u, hu, hus⟩ := List.countP_pos_iff.mp hrest
      exact ⟨u, hu, by simpa using hus⟩

theorem lookup_scan_not_found {name : String} :
    ∀ bs : List TableBinding, column_match_count bs name = 0 →
      lookup_scan name bs none = .error ("Column not found: " ++ name) := by
  intro bs
  induction bs with
  | nil => intro _; rfl
  | cons b rest ih =>
    intro h
    simp only [column_match_count, List.countP_cons] at h
    cases hfc : try_find_column b.schema name with
    | some ci =>
      rw [hfc] at h
      simp at h
    | none =>
      simp only [lookup_scan, hfc]
      apply ih
      rw [hfc] at h
      simpa [column_match_count] using h

/-- C2: unqualified references fail as ambiguous when two or more bindings
carry the column and as not-found when none does; a qualified reference
succeeds when the (nonempty) table name or alias resolves through the
context's lookup map — which the later bindings shadow — to a binding whose
schema contains the column. -/
theorem C2_column_resolution :
    ∀ (ctx : EvaluationContext) (name : String),
      (2 ≤ column_match_count ctx name →
        lookup_column ctx "" name = .error ("Ambiguous column: " ++ name)) ∧
      (column_match_count ctx name = 0 →
        lookup_column ctx "" name = .error ("Column not found: " ++ name)) ∧
      (∀ (key : String) (b : TableBinding) (c : ColumnSchema) (i : Nat),
        key ≠ "" → ctx_lookup ctx key = some b →
        try_find_column b.schema name = some (c, i) →
        lookup_column ctx key name = .ok (b, c, i)) := by
  intro ctx name
  have hunq : lookup_column ctx "" name = lookup_scan name ctx none := by
    simp [lookup_column]
  refine ⟨?_, ?_, ?_⟩
  · intro h
    rw [hunq]
    exact lookup_scan_ambiguous ctx h
  · intro h
    rw [hunq]
    exact lookup_scan_not_found ctx h
  · intro key b c i hkey hctx hfc
    simp only [lookup_column, if_pos (by simpa using hkey), resolve_binding, hctx, hfc]

/-- A context in which two bindings are both named `t`: the second shadows
the first in the lookup map built by `make_context`. -/
def c2_shadowed : TableBinding :=
  { schema := ⟨"t", [⟨"a", .Int, 4⟩]⟩, row := ["1"], table_name := "t", alias_ := "t" }

/-- The later binding, also named `t`, whose schema has no column `a`. -/
def c2_shadowing : TableBinding :=
  { schema := ⟨"t", [⟨"b", .Int, 4⟩]⟩, row := ["2"], table_name := "t", alias_ := "t" }

def c2_ctx : EvaluationContext := [c2_shadowed, c2_shadowing]

/-- C2 counterexample: the alias `t` names the first binding of the context
and column `a` exists in that binding's schema, yet the qualified reference
`t.a` fails — the lookup map resolves `t` to the later binding, whose schema
lacks `a`.  So a qualified reference does NOT always succeed when the alias
names a binding carrying the column. -/
theorem C2_qualified_shadowing_counterexample :
    c2_shadowed ∈ c2_ctx ∧
    c2_shadowed.alias_ = "t" ∧
    try_find_column c2_shadowed.schema "a" = some (⟨"a", .Int, 4⟩, 0) ∧
    lookup_column c2_ctx "t" "a" = .error "Column not found: t.a" := by
  refine ⟨List.mem_cons_self _ _, rfl, rfl, rfl⟩

/-- Binding for table `t(id INT, name VARCHAR)` with row (1, Alice). -/
def c2_t_binding : TableBinding :=
  { schema := ⟨"t", [⟨"id", .Int, 4⟩, ⟨"name", .Varchar, 255⟩]⟩,
    row := ["1", "Alice"], table_name := "t", alias_ := "t" }

/-- Binding for table `u(id INT)` with row (2). -/
def c2_u_binding : TableBinding :=
  { schema := ⟨"u", [⟨"id", .Int, 4⟩]⟩, row := ["2"], table_name := "u", alias_ := "u" }

/-- Two joined tables sharing the column name `id`. -/
def c2_amb_ctx : EvaluationContext := [c2_t_binding, c2_u_binding]

/-- C2 witness: each part of `C2_column_resolution` applied at a concrete
two-table context — unqualified `id` is ambiguous, unqualified `zzz` is not
found, qualified `u.id` succeeds. -/
theorem C2_column_resolution_witness :
    lookup_column c2_amb_ctx "" "id" = .error "Ambiguous column: id" ∧
    lookup_column c2_amb_ctx "" "zzz" = .error "Column not found: zzz" ∧
    lookup_column c2_amb_ctx "u" "id" = .ok (c2_u_binding, ⟨"id", .Int, 4⟩, 0) := by
  refine ⟨?_, ?_, ?_⟩
  · exact (C2_column_resolution c2_amb_ctx "id").1 (by decide)
  · exact (C2_column_resolution c2_amb_ctx "zzz").2.1 (by decide)
  · exact (C2_column_resolution c2_amb_ctx "id").2.2 "u" c2_u_binding ⟨"id", .Int, 4⟩ 0
      (by decide) (by decide) (by decide)

/-! ## C3: type-checked comparison -/

/-- Engine state for the spec's scenario 6: `t(id INT, name VARCHAR)` with
the row (1, Alice). -/
def c3_state : EngineState :=
  ⟨[⟨"t", [⟨"id", .Int, 4⟩, ⟨"name", .Varchar, 255⟩]⟩],
   [("t", [["1", "Alice"]])], []⟩

/-- `SELECT * FROM t WHERE name > 5;` as parsed. -/
def c3_select : SelectStatement :=
  { select_list := [⟨true, "", "", ""⟩],
    primary_table := ⟨"t", ""⟩,
    joins := [],
    where_expr := some (.cmp .Greater (.col "" "name") (.lit (.int 5))) }

/-- C3: `=`/`<>` on operands of different literal types raise a
type-mismatch error rather than returning false; `<`,`>`,`<=`,`>=` raise an
error unless both operands are Int; and `SELECT * FROM t WHERE name > 5` on
a VARCHAR column fails instead of returning a filtered or empty result. -/
theorem C3_comparison_type_checking :
    (∀ (ctx : EvaluationContext) (l r : Expression) (v w : LiteralValue),
      evaluate_operand l ctx = .ok v → evaluate_operand r ctx = .ok w →
      v.ltype ≠ w.ltype →
      evaluate_comparison .Equal l r ctx = .error "Cannot compare values of different types" ∧
      evaluate_comparison .NotEqual l r ctx =
        .error "Cannot compare values of different types") ∧
    (∀ (ctx : EvaluationContext) (l r : Expression) (v w : LiteralValue)
        (op : ComparisonOperator),
      evaluate_operand l ctx = .ok v → evaluate_operand r ctx = .ok w →
      (op = .Less ∨ op = .Greater ∨ op = .LessOrEqual ∨ op = .GreaterOrEqual) →
      (v.isInt = false ∨ w.isInt = false) →
      evaluate_comparison op l r ctx = .error (ordering_op_error op)) ∧
    handle_select c3_state c3_select = .error "> comparisons require INT operands" := by
  refine ⟨?_, ?_, rfl⟩
  · intro ctx l r v w hl hr hvw
    rcases v with a | a <;> rcases w with b | b
    · simp [LiteralValue.ltype] at hvw
    · exact ⟨by simp [evaluate_comparison, hl, hr, compare_literals],
        by simp [evaluate_comparison, hl, hr, compare_literals]⟩
    · exact ⟨by simp [evaluate_comparison, hl, hr, compare_literals],
        by simp [evaluate_comparison, hl, hr, compare_literals]⟩
    · simp [LiteralValue.ltype] at hvw
  · intro ctx l r v w op hl hr hop hint
    rcases hop with h | h | h | h <;> subst h <;>
      (rcases v with a | a <;> rcases w with b | b) <;>
      simp_all [evaluate_comparison, ordering_op_error, LiteralValue.isInt]

/-- C3 witness: concrete instances for both general parts — comparing the
Int 1 with the String "x" under `=` fails, and under `<` fails with the
ordering message. -/
theorem C3_comparison_type_checking_witness :
    evaluate_comparison .Equal (.lit (.int 1)) (.lit (.str "x")) [] =
      .error "Cannot compare values of different types" ∧
    evaluate_comparison .Less (.lit (.int 1)) (.lit (.str "x")) [] =
      .error "< comparisons require INT operands" := by
  constructor
  · exact (C3_comparison_type_checking.1 [] (.lit (.int 1)) (.lit (.str "x"))
      (.int 1) (.str "x") rfl rfl (by decide)).1
  · exact C3_comparison_type_checking.2.1 [] (.lit (.int 1)) (.lit (.str "x"))
      (.int 1) (.str "x") .Less rfl rfl (.inl rfl) (.inr rfl)

/-! ## C4: AND short-circuit -/

theorem foldl_and_all_true {g : Expression → Except String Bool} :
    ∀ ts : List Expression, (∀ u ∈ ts, g u = .ok true) →
      ts.foldl (and_fold_step g) (.ok true) = .ok true := by
  intro ts
  induction ts with
  | nil => intro _; rfl
  | cons u rest ih =>
    intro h
    simp only [List.foldl_cons, and_fold_step, h u (List.mem_cons_self u rest)]
    exact ih (fun x hx => h x (List.mem_cons_of_mem u hx))

theorem foldl_and_false {g : Expression → Except String Bool} :
    ∀ ts : List Expression, ts.foldl (and_fold_step g) (.ok false) = .ok false := by
  intro ts
  induction ts with
  | nil => rfl
  | cons u rest ih => simpa [List.foldl_cons, and_fold_step] using ih

/-- C4: And evaluation is strictly left-to-right and stops at the first
false term — if every term before `t` evaluates true and `t` evaluates
false, the whole And evaluates false, whatever the later terms would do
(they are never evaluated). -/
theorem C4_and_short_circuit :
    ∀ (ctx : EvaluationContext) (pre : List Expression) (t : Expression)
      (post : List Expression),
      (∀ u ∈ pre, evaluate_condition_expr u ctx = .ok true) →
      evaluate_condition_expr t ctx = .ok false →
      evaluate_condition_expr (.and (pre ++ t :: post)) ctx = .ok false := by
  intro ctx pre t post hpre ht
  rw [evaluate_condition_expr_and, List.foldl_append, foldl_and_all_true pre hpre]
  simp only [List.foldl_cons]
  have hstep : and_fold_step (fun u => evaluate_condition_expr u ctx) (.ok true) t
      = .ok false := by
    simp [and_fold_step, ht]
  rw [hstep]
  exact foldl_and_false post

/-- C4 witness: with terms `[1 = 2, 'a' > 1]` the second term alone raises a
type error, yet the And evaluates to false without error. -/
theorem C4_and_short_circuit_witness :
    evaluate_condition_expr (.cmp .Greater (.lit (.str "a")) (.lit (.int 1))) [] =
      .error "> comparisons require INT operands" ∧
    evaluate_condition_expr
      (.and [.cmp .Equal (.lit (.int 1)) (.lit (.int 2)),
             .cmp .Greater (.lit (.str "a")) (.lit (.int 1))]) [] = .ok false := by
  constructor
  · rfl
  · exact C4_and_short_circuit [] [] (.cmp .Equal (.lit (.int 1)) (.lit (.int 2)))
      [.cmp .Greater (.lit (.str "a")) (.lit (.int 1))] (by simp) rfl

/-! ## C5: literal/storage round trip -/

/-- A literal valid for a column, as the claim puts it: an Int literal for
an Int column; a String literal within the declared length for a Varchar
column. -/
def literal_valid (v : LiteralValue) (c : ColumnSchema) : Prop :=
  match c.type with
  | .Int => ∃ i, v = .int i
  | .Varchar => ∃ s, v = .str s ∧ s.length ≤ c.length

theorem int_to_string_ne_empty (i : Int) : int_to_string i ≠ "" := by
  intro h
  have hdata := congrArg String.data h
  by_cases hneg : i < 0
  · rw [show (int_to_string i).data = '-' :: natToDigits (i.natAbs + 1) i.natAbs from by
      simp only [int_to_string, if_pos hneg, String.data_append]; rfl] at hdata
    cases hdata
  · rw [show int_to_string i = nat_repr i.natAbs from by simp [int_to_string, hneg]] at hdata
    exact natToDigits_ne_nil (show i.natAbs < i.natAbs + 1 by omega) hdata

/-- C5: for every column schema and every literal valid for it, converting
to storage text and back yields the literal unchanged. -/
theorem C5_literal_round_trip :
    ∀ (c : ColumnSchema) (v : LiteralValue), literal_valid v c →
      (literal_to_storage v c).bind (storage_to_literal c) = .ok v := by
  intro c v hvalid
  unfold literal_valid at hvalid
  cases hct : c.type with
  | Int =>
    simp only [hct] at hvalid
    obtain ⟨i, rfl⟩ := hvalid
    have hls : literal_to_storage (.int i) c = .ok (int_to_string i) := by
      simp [literal_to_storage, hct]
    rw [hls]
    show storage_to_literal c (int_to_string i) = .ok (.int i)
    simp only [storage_to_literal, hct, if_neg (int_to_string_ne_empty i),
      parse_int64_int_to_string]
  | Varchar =>
    simp only [hct] at hvalid
    obtain ⟨s, rfl, hlen⟩ := hvalid
    have hcond : ¬ (0 < c.length ∧ c.length < s.length) := by omega
    have hls : literal_to_storage (.str s) c = .ok s := by
      simp only [literal_to_storage, hct, if_neg hcond]
    rw [hls]
    show storage_to_literal c s = .ok (.str s)
    simp [storage_to_literal, hct]

/-- C5 witness: the Int literal −42 on an INT column and the String literal
"ab" on a VARCHAR(5) column both survive the round trip. -/
theorem C5_literal_round_trip_witness :
    literal_valid (.int (-42)) ⟨"n", .Int, 4⟩ ∧
    (literal_to_storage (.int (-42)) ⟨"n", .Int, 4⟩).bind
      (storage_to_literal ⟨"n", .Int, 4⟩) = .ok (.int (-42)) ∧
    literal_valid (.str "ab") ⟨"s", .Varchar, 5⟩ ∧
    (literal_to_storage (.str "ab") ⟨"s", .Varchar, 5⟩).bind
      (storage_to_literal ⟨"s", .Varchar, 5⟩) = .ok (.str "ab") := by
  refine ⟨⟨-42, rfl⟩, ?_, ⟨"ab", rfl, by decide⟩, ?_⟩
  · exact C5_literal_round_trip ⟨"n", .Int, 4⟩ (.int (-42)) ⟨-42, rfl⟩
  · exact C5_literal_round_trip ⟨"s", .Varchar, 5⟩ (.str "ab") ⟨"ab", rfl, by decide⟩

/-! ## C6: CREATE TABLE on an existing name -/

/-- C6: creating a table whose name already exists fails with the
already-exists error and returns the engine state completely unchanged — in
particular the existing schema, the stored rows and the mutation trace are
untouched, so no storage call was made. -/
theorem C6_create_existing_table :
    ∀ (st : EngineState) (statement : CreateTableStatement),
      table_exists st.catalog statement.table_name = true →
      handle_create_table st statement =
        (st, .error ("Table already exists: " ++ statement.table_name)) := by
  intro st statement h
  simp [handle_create_table, st_catalog_create, catalog_create_table, h]

/-- C6 witness: re-creating the existing table `t` of `c3_state` fails and
leaves the state untouched. -/
theorem C6_create_existing_table_witness :
    table_exists c3_state.catalog "t" = true ∧
    handle_create_table c3_state ⟨"t", [⟨"id", .Int, 4⟩]⟩ =
      (c3_state, .error "Table already exists: t") :=
  ⟨rfl, C6_create_existing_table c3_state ⟨"t", [⟨"id", .Int, 4⟩]⟩ rfl⟩

/-! ## C8: order of collaborator mutations in DDL -/

theorem get_table_of_exists {cat : Catalog} {n : String}
    (h : table_exists cat n = true) : ∃ s, get_table cat n = some s := by
  unfold table_exists at h
  obtain ⟨x, hx, hpx⟩ := List.any_eq_true.mp h
  have : (cat.find? (fun s => s.name = n)).isSome := by
    rw [List.find?_isSome]
    exact ⟨x, hx, hpx⟩
  obtain ⟨s, hs⟩ := Option.isSome_iff_exists.mp this
  exact ⟨s, hs⟩

/-- C8 (amended): CreateTable mutates the catalog before storage; ALTER
TABLE RENAME mutates storage before the catalog; and DropTable — contrary
to the claim as written — also mutates the catalog before storage. -/
theorem C8_ddl_mutation_order :
    (∀ (st : EngineState) (statement : CreateTableStatement),
      table_exists st.catalog statement.table_name = false →
      (handle_create_table st statement).1.trace =
        st.trace ++ [.catCreate statement.table_name, .storCreate statement.table_name]) ∧
    (∀ (st : EngineState) (statement : DropTableStatement),
      table_exists st.catalog statement.table_name = true →
      (handle_drop_table st statement).1.trace =
        st.trace ++ [.catDrop statement.table_name, .storDrop statement.table_name]) ∧
    (∀ (st : EngineState) (old_name new_name : String),
      table_exists st.catalog old_name = true →
      table_exists st.catalog new_name = false →
      (handle_alter_rename st old_name new_name).1.trace =
        st.trace ++ [.storRename old_name new_name, .catRename old_name new_name]) := by
  refine ⟨?_, ?_, ?_⟩
  · intro st statement h
    simp [handle_create_table, st_catalog_create, catalog_create_table, h,
      st_storage_create]
  · intro st statement h
    simp [handle_drop_table, st_catalog_drop, catalog_drop_table, h, st_storage_drop]
  · intro st old_name new_name hold hnew
    obtain ⟨schema, hschema⟩ := get_table_of_exists hold
    simp [handle_alter_rename, hold, hnew, st_storage_rename, st_catalog_rename,
      catalog_rename_table, hschema]

/-- Engine state holding one table `t` with no rows. -/
def c8_state : EngineState := ⟨[⟨"t", [⟨"id", .Int, 4⟩]⟩], [("t", [])], []⟩

/-- C8 counterexample: dropping `t` logs the catalog drop BEFORE the storage
drop — the claim's "storage mutation before the catalog mutation for every
DropTable" is false on this concrete state. -/
theorem C8_drop_order_counterexample :
    (handle_drop_table c8_state ⟨"t"⟩).1.trace = [.catDrop "t", .storDrop "t"] ∧
    (handle_drop_table c8_state ⟨"t"⟩).1.trace ≠ [.storDrop "t", .catDrop "t"] :=
  ⟨rfl, by decide⟩

/-- C8 witness: the three parts of `C8_ddl_mutation_order` at the concrete
one-table state. -/
theorem C8_ddl_mutation_order_witness :
    (handle_create_table c8_state ⟨"u", [⟨"id", .Int, 4⟩]⟩).1.trace =
      [.catCreate "u", .storCreate "u"] ∧
    (handle_drop_table c8_state ⟨"t"⟩).1.trace = [.catDrop "t", .storDrop "t"] ∧
    (handle_alter_rename c8_state "t" "u").1.trace =
      [.storRename "t" "u", .catRename "t" "u"] :=
  ⟨C8_ddl_mutation_order.1 c8_state ⟨"u", [⟨"id", .Int, 4⟩]⟩ rfl,
   C8_ddl_mutation_order.2.1 c8_state ⟨"t"⟩ rfl,
   C8_ddl_mutation_order.2.2 c8_state "t" "u" rfl rfl⟩

/-! ## C7: tokenization of unrecognized characters -/

/-- C7 (amended): a character that is not whitespace, not a letter or
underscore, not a digit and not a quote is tokenized as a single-character
Symbol token — tokenization succeeds, it does not fail with a lexical
error. -/
theorem C7_unrecognized_char_single_symbol :
    ∀ c : Char, c_isspace c = false → c_isalpha c = false → c ≠ '_' →
      c_isdigit c = false → c ≠ '\'' →
      tokenize (String.mk [c]) = .ok [⟨.Symbol, String.mk [c]⟩, ⟨.End, ""⟩] := by
  intro c hsp halpha hund hdig hq
  have hdrop : [c].dropWhile c_isspace = [c] := by
    simp [List.dropWhile_cons, hsp]
  have hnt : next_token [c] = .ok (⟨.Symbol, String.mk [c]⟩, []) := by
    simp [next_token, hdrop, halpha, hund, hdig, hq, consume_symbol, List.isPrefixOf]
  have hfuel : (String.mk [c]).data.length + 1 = 2 := rfl
  unfold tokenize
  rw [hfuel]
  show tokenize_fuel 2 [c] = _
  simp only [tokenize_fuel, hnt]
  rfl

/-- C7 counterexample: `@` satisfies every character-class condition of the
claim (not whitespace, not letter/underscore/digit, not a quote, and not a
symbol the grammar knows), yet tokenization does NOT fail — it succeeds,
emitting `@` as a Symbol token. -/
theorem C7_tokenize_at_sign_counterexample :
    c_isspace '@' = false ∧ c_isalpha '@' = false ∧ '@' ≠ '_' ∧
    c_isdigit '@' = false ∧ '@' ≠ '\'' ∧
    tokenize "@" = .ok [⟨.Symbol, "@"⟩, ⟨.End, ""⟩] :=
  ⟨rfl, rfl, by decide, rfl, by decide, rfl⟩

/-- C7 witness: the amended theorem applied at the concrete character `#`. -/
theorem C7_unrecognized_char_witness :
    tokenize (String.mk ['#']) = .ok [⟨.Symbol, String.mk ['#']⟩, ⟨.End, ""⟩] :=
  C7_unrecognized_char_single_symbol '#' rfl rfl (by decide) rfl (by decide)

/-! ## C9: UPDATE/DELETE rewrite only when rows were affected -/

deriving instance DecidableEq for Except

theorem update_pass_all_false (schema : TableSchema) (ivs : List (Nat × String))
    (wh : Option Expression) :
    ∀ rows : List (List String),
      (∀ row ∈ rows, evaluate_condition wh [single_binding schema row] = .ok false) →
      update_pass schema ivs wh rows = .ok (rows, 0) := by
  intro rows
  induction rows with
  | nil => intro _; rfl
  | cons row rest ih =>
    intro h
    simp only [update_pass, h row (List.mem_cons_self row rest),
      ih (fun r hr => h r (List.mem_cons_of_mem row hr))]

theorem delete_pass_all_false (schema : TableSchema) (wh : Option Expression) :
    ∀ rows : List (List String),
      (∀ row ∈ rows, evaluate_condition wh [single_binding schema row] = .ok false) →
      delete_pass schema wh rows = .ok (rows, 0) := by
  intro rows
  induction rows with
  | nil => intro _; rfl
  | cons row rest ih =>
    intro h
    simp only [delete_pass, h row (List.mem_cons_self row rest),
      ih (fun r hr => h r (List.mem_cons_of_mem row hr))]

/-- C9: an UPDATE writes the table back iff its row pass affected at least
one row, and a DELETE writes back iff it removed at least one row — with no
affected/removed row the statement still succeeds, reports zero rows, and
leaves the state (stored rows and trace) untouched.  A WHERE matching zero
rows is exactly that zero case, not an error. -/
theorem C9_update_delete_rewrite_frame :
    (∀ (st : EngineState) (statement : UpdateStatement) (schema : TableSchema)
        (ivs : List (Nat × String)) (rows rewritten : List (List String)) (n : Nat),
      get_table st.catalog statement.table_name = some schema →
      resolve_assignments schema statement.assignments = .ok ivs →
      read_all_rows st.storage statement.table_name = .ok rows →
      update_pass schema ivs statement.where_expr rows = .ok (rewritten, n) →
      (handle_update st statement).1.trace =
        st.trace ++ (if 0 < n then [CollabOp.storWriteAll statement.table_name] else []) ∧
      (n = 0 → (handle_update st statement).1 = st)) ∧
    (∀ (st : EngineState) (statement : UpdateStatement) (schema : TableSchema)
        (ivs : List (Nat × String)) (rows : List (List String)),
      get_table st.catalog statement.table_name = some schema →
      resolve_assignments schema statement.assignments = .ok ivs →
      read_all_rows st.storage statement.table_name = .ok rows →
      (∀ row ∈ rows,
        evaluate_condition statement.where_expr [single_binding schema row] = .ok false) →
      handle_update st statement =
        (st, .ok (format_success
          (nat_repr 0 ++ " row(s) updated in " ++ statement.table_name)))) ∧
    (∀ (st : EngineState) (statement : DeleteStatement) (schema : TableSchema)
        (rows kept : List (List String)) (n : Nat),
      get_table st.catalog statement.table_name = some schema →
      read_all_rows st.storage statement.table_name = .ok rows →
      delete_pass schema statement.where_expr rows = .ok (kept, n) →
      (handle_delete st statement).1.trace =
        st.trace ++ (if 0 < n then [CollabOp.storWriteAll statement.table_name] else []) ∧
      (n = 0 → (handle_delete st statement).1 = st)) ∧
    (∀ (st : EngineState) (statement : DeleteStatement) (schema : TableSchema)
        (rows : List (List String)),
      get_table st.catalog statement.table_name = some schema →
      read_all_rows st.storage statement.table_name = .ok rows →
      (∀ row ∈ rows,
        evaluate_condition statement.where_expr [single_binding schema row] = .ok false) →
      handle_delete st statement =
        (st, .ok (format_success
          (nat_repr 0 ++ " row(s) deleted from " ++ statement.table_name)))) := by
  refine ⟨?_, ?_, ?_, ?_⟩
  · intro st statement schema ivs rows rewritten n hget hres hread hpass
    constructor
    · by_cases h0 : 0 < n <;>
        simp [handle_update, hget, hres, hread, hpass, h0, st_storage_write_all]
    · intro h0
      subst h0
      simp [handle_update, hget, hres, hread, hpass]
  · intro st statement schema ivs rows hget hres hread hall
    have hpass := update_pass_all_false schema ivs statement.where_expr rows hall
    simp [handle_update, hget, hres, hread, hpass]
  · intro st statement schema rows kept n hget hread hpass
    constructor
    · by_cases h0 : 0 < n <;>
        simp [handle_delete, hget, hread, hpass, h0, st_storage_write_all]
    · intro h0
      subst h0
      simp [handle_delete, hget, hread, hpass]
  · intro st statement schema rows hget hread hall
    have hpass := delete_pass_all_false schema statement.where_expr rows hall
    simp [handle_delete, hget, hread, hpass]

/-- Engine state with one table `w(id INT)` holding rows (1) and (2). -/
def c9_state : EngineState :=
  ⟨[⟨"w", [⟨"id", .Int, 4⟩]⟩], [("w", [["1"], ["2"]])], []⟩

/-- `UPDATE w SET id = 5 WHERE id = 1;` — matches one row. -/
def c9_upd : UpdateStatement :=
  ⟨"w", [⟨"id", .int 5⟩], some (.cmp .Equal (.col "" "id") (.lit (.int 1)))⟩

/-- `UPDATE w SET id = 5 WHERE id = 9;` — matches no row. -/
def c9_upd0 : UpdateStatement :=
  ⟨"w", [⟨"id", .int 5⟩], some (.cmp .Equal (.col "" "id") (.lit (.int 9)))⟩

/-- `DELETE FROM w WHERE id = 1;` — removes one row. -/
def c9_del : DeleteStatement :=
  ⟨"w", some (.cmp .Equal (.col "" "id") (.lit (.int 1)))⟩

/-- `DELETE FROM w WHERE id = 9;` — removes no row. -/
def c9_del0 : DeleteStatement :=
  ⟨"w", some (.cmp .Equal (.col "" "id") (.lit (.int 9)))⟩

/-- C9 witness: the four parts of `C9_update_delete_rewrite_frame` at the
concrete two-row table — a matching UPDATE/DELETE logs exactly one rewrite,
a zero-match one succeeds with the state untouched. -/
theorem C9_update_delete_rewrite_frame_witness :
    (handle_update c9_state c9_upd).1.trace = [CollabOp.storWriteAll "w"] ∧
    handle_update c9_state c9_upd0 =
      (c9_state, .ok (format_success (nat_repr 0 ++ " row(s) updated in " ++ "w"))) ∧
    (handle_delete c9_state c9_del).1.trace = [CollabOp.storWriteAll "w"] ∧
    handle_delete c9_state c9_del0 =
      (c9_state, .ok (format_success (nat_repr 0 ++ " row(s) deleted from " ++ "w"))) := by
  refine ⟨?_, ?_, ?_, ?_⟩
  · have h := (C9_update_delete_rewrite_frame.1 c9_state c9_upd ⟨"w", [⟨"id", .Int, 4⟩]⟩
      [(0, "5")] [["1"], ["2"]] [["5"], ["2"]] 1 rfl rfl rfl rfl).1
    simpa using h
  · exact C9_update_delete_rewrite_frame.2.1 c9_state c9_upd0 ⟨"w", [⟨"id", .Int, 4⟩]⟩
      [(0, "5")] [["1"], ["2"]] rfl rfl rfl (by decide)
  · have h := (C9_update_delete_rewrite_frame.2.2.1 c9_state c9_del ⟨"w", [⟨"id", .Int, 4⟩]⟩
      [["1"], ["2"]] [["2"]] 1 rfl rfl rfl).1
    simpa using h
  · exact C9_update_delete_rewrite_frame.2.2.2 c9_state c9_del0 ⟨"w", [⟨"id", .Int, 4⟩]⟩
      [["1"], ["2"]] rfl rfl (by decide)

/-! ## C10: VARCHAR(0) disables the length check -/

/-- The token sequence of the type suffix `VARCHAR(0)`. -/
def c10_tokens : List Token :=
  [⟨.Identifier, "VARCHAR"⟩, ⟨.Symbol, "("⟩, ⟨.Number, "0"⟩, ⟨.Symbol, ")"⟩, ⟨.End, ""⟩]

/-- C10: `VARCHAR(0)` tokenizes and parses to a Varchar column of declared
length 0, and `literal_to_storage` applies its maximum-length check only
when the declared length is strictly positive — a length-0 Varchar column
accepts a String literal of any length. -/
theorem C10_varchar_zero_length :
    tokenize "VARCHAR(0)" = .ok c10_tokens ∧
    (parse_column_definition_tail ⟨c10_tokens, 0⟩ ⟨"c", .Int, 0⟩).map Prod.fst =
      .ok ⟨"c", .Varchar, 0⟩ ∧
    (∀ (c : ColumnSchema) (s : String), c.type = .Varchar → c.length = 0 →
      literal_to_storage (.str s) c = .ok s) := by
  refine ⟨rfl, rfl, ?_⟩
  intro c s hct hl
  simp [literal_to_storage, hct, hl]

/-- C10 witness: a 36-character string is accepted by a VARCHAR(0) column. -/
theorem C10_varchar_zero_length_witness :
    literal_to_storage (.str "a string much longer than zero chars") ⟨"v", .Varchar, 0⟩ =
      .ok "a string much longer than zero chars" :=
  C10_varchar_zero_length.2.2 ⟨"v", .Varchar, 0⟩ "a string much longer than zero chars"
    rfl rfl

end MiniDb
